import Mathlib

/-!
# Verification of the `sphinx-zeta-suppress` logging-filter extension

This file gives a shallow embedding, in Lean 4, of the filter classes and
registry/installer logic of `sphinx-zeta-suppress.py`, and proves (or refutes)
the behavioural claims made by the specification of that module.

Modelling conventions:
* A Python `logging.LogRecord` is reduced to the three fields the code reads:
  the logger name, the numeric level (`levelno`), and the fully formatted
  message (`record.getMessage()` is modelled as a precomputed string field).
* A compiled regular expression is modelled extensionally by its `search`
  behaviour: a function `String → Bool` telling whether the pattern is found
  somewhere in the message.  The claims under study never depend on the
  internal structure of a regex, only on whether some pattern matches.
* Python integers are `Int`; Python strings are `String`, with character-level
  operations done on `String.data` (Python indexes strings by code point).
* Fallible Python code (functions that may `raise`) returns `Except String`.
-/

/-- A logging record, reduced to the fields read by the filters:
`record.name`, `record.levelno` and `record.getMessage()`. -/
structure LogRecord where
  name : String
  levelno : Int
  message : String

/-- A compiled regular expression, modelled extensionally by its
`pattern.search(message) is not None` behaviour. -/
def Pattern : Type := String → Bool

/-!
## Python objects fed to `_parse_levels` / `_normalize_level`

`_parse_levels` accepts an int, a string, or an iterable of "levels"; its
behaviour depends on Python-level type tests (`isinstance(x, Iterable)`,
`isinstance(x, (int, str))`) and on dictionary-lookup hashability, so the
embedding needs a small universe of Python values:

* `pint n`   – an `int`;
* `pstr s`   – a `str` (note: a `str` IS iterable in Python, yielding its
  one-character substrings);
* `pnone`    – `None` (hashable, not iterable, not an int/str);
* `pfloat`   – a `float` (hashable, not iterable, not an int/str; never a key
  of `logging._nameToLevel`);
* `plist xs` – a `list` (iterable but NOT hashable: using it as a dict key
  raises `TypeError`).
-/

inductive PyObj where
  | pint (n : Int)
  | pstr (s : String)
  | pnone
  | pfloat
  | plist (xs : List PyObj)
  deriving Repr

/-- The stdlib table `logging._nameToLevel` (case-sensitive). -/
def nameToLevel : String → Option Int
  | "CRITICAL" => some 50
  | "FATAL" => some 50
  | "ERROR" => some 40
  | "WARN" => some 30
  | "WARNING" => some 30
  | "INFO" => some 20
  | "DEBUG" => some 10
  | "NOTSET" => some 0
  | _ => none

/-- `_normalize_level(level)`: an `int` is returned as is; otherwise the value
is looked up in `logging._nameToLevel`.  A failed lookup of a *hashable* key
(`str`, `None`, `float`, ...) raises `KeyError`, which the code converts to
`None`; an *unhashable* key (a `list`) raises `TypeError`, which the code
re-raises as `TypeError('invalid logging level type for ...')`. -/
def normalizeLevel : PyObj → Except String (Option Int)
  | .pint n => .ok (some n)
  | .pstr s => .ok (nameToLevel s)
  | .pnone => .ok none
  | .pfloat => .ok none
  | .plist _ => .error "invalid logging level type for element"

/-- `list(filter(_notnone, map(_normalize_level, levels)))`: normalize each
element in order (the first `TypeError` aborts) and keep the non-`None`
results. -/
def normalizeLevels : List PyObj → Except String (List Int)
  | [] => .ok []
  | x :: xs =>
    match normalizeLevel x with
    | .error e => .error e
    | .ok v =>
      match normalizeLevels xs with
      | .error e => .error e
      | .ok rest => .ok (match v with | some n => n :: rest | none => rest)

/-- `_parse_levels(levels)`.  Mirrors the source exactly:
* a non-iterable that is neither `int` nor `str` raises `TypeError`;
* a non-iterable `int` is wrapped as `[levels]` and normalized;
* an *iterable* goes straight to `map(_normalize_level, ...)` — and since a
  Python `str` is iterable, a bare name string is iterated character by
  character rather than wrapped. -/
def parseLevels : PyObj → Except String (List Int)
  | .pint n => .ok [n]
  | .pstr s => normalizeLevels (s.data.map (fun c => PyObj.pstr (String.singleton c)))
  | .plist xs => normalizeLevels xs
  | .pnone => .error "invalid logging level type"
  | .pfloat => .error "invalid logging level type"

/-!
## The filter classes
-/

/-- The `levels` attribute of a `SphinxSuppressLogger`: either the `_ALL`
sentinel (an object whose `__contains__` always answers `True`) or a plain
list of integer levels. -/
inductive Levels where
  | all
  | ofList (ls : List Int)

/-- `record.levelno in self.levels`. -/
def Levels.isMember : Levels → Int → Bool
  | .all, _ => true
  | .ofList ls, n => ls.contains n

/-- The `levels` argument accepted by `SphinxSuppressLogger.__init__`:
a `bool`, or any other Python value (handed to `_parse_levels`). -/
inductive LevelsSpec where
  | bool (b : Bool)
  | obj (v : PyObj)

/-- `logging.Filter.filter(self, record)` from the Python stdlib, for a filter
constructed with name `fname`, applied to a record named `rname`:
an empty filter name matches everything; otherwise the record name must be
equal to the filter name, or extend it at a `.` boundary. -/
def filterNameMatch (fname rname : String) : Bool :=
  fname.data.length == 0 || fname == rname ||
    (fname.data.isPrefixOf rname.data &&
      ((rname.data.drop fname.data.length).head? == some '.'))

/-- The three concrete filter classes.  The `patterns` field models
`set(map(re.compile, patterns))`: the stored compiled patterns, queried only
through an existential search (`any(...)`), which is insensitive to the list
vs set representation.

`record` is `SphinxSuppressRecord(name, levels, patterns)`, which multiply
inherits from `SphinxSuppressLogger` and `SphinxSuppressPatterns`.  Its
`name` field here is the *constructor argument* (the registry keys on it),
but the object's runtime `logging.Filter` name is NOT that string: inside
`SphinxSuppressRecord.__init__`, `SphinxSuppressLogger.__init__(self, name,
levels)` runs `super().__init__(name)`, which under the record's MRO
(`Record, Logger, Patterns, SphinxSuppressFilter, logging.Filter`)
dispatches to `SphinxSuppressPatterns.__init__(self, name)`; that in turn
calls `super().__init__('')`, so `logging.Filter.__init__` receives the
EMPTY name (and the transient `set(map(re.compile, name))` it stores is
overwritten by the later explicit `SphinxSuppressPatterns.__init__(self,
patterns)`, which sets the name to `''` once more).  Net effect: a record
filter's `logging.Filter` name is `''`, so its name check always passes and
its name/level half degenerates to the level-membership test. -/
inductive SuppressFilter where
  | logger (name : String) (levels : Levels)
  | patterns (ps : List Pattern)
  | record (name : String) (levels : Levels) (ps : List Pattern)

/-- `SphinxSuppressLogger.suppressed`:
`should_log = logging.Filter.filter(self, record)`;
`return not should_log or record.levelno in self.levels`. -/
def loggerSuppressed (name : String) (levels : Levels) (r : LogRecord) : Bool :=
  !(filterNameMatch name r.name) || levels.isMember r.levelno

/-- `SphinxSuppressPatterns.suppressed`: `if not self.patterns: return False`;
`return any(p.search(record.getMessage()) for p in self.patterns)`. -/
def patternsSuppressed (ps : List Pattern) (r : LogRecord) : Bool :=
  if ps.isEmpty then false
  else ps.any (fun p => p r.message)

/-- `suppressed(record)` for each filter class.  `SphinxSuppressRecord`
conjoins the two parent methods — but, per the MRO analysis on
`SuppressFilter`, its `logging.Filter` name is the empty string, so the
`SphinxSuppressLogger.suppressed(self, record)` half runs with name `''`
(its name check always passes) and the stored constructor name plays no part
in the decision. -/
def SuppressFilter.suppressed : SuppressFilter → LogRecord → Bool
  | .logger name levels, r => loggerSuppressed name levels r
  | .patterns ps, r => patternsSuppressed ps r
  | .record _ levels ps, r => loggerSuppressed "" levels r && patternsSuppressed ps r

/-- `SphinxSuppressLogger.__init__(name, levels)`: a `bool` is intercepted
first (`_ALL` for `True`, the empty list for `False`); anything else goes
through `_parse_levels`, whose `TypeError` propagates to the caller. -/
def mkSuppressLogger (name : String) (spec : LevelsSpec) : Except String SuppressFilter :=
  match spec with
  | .bool b => .ok (.logger name (if b then Levels.all else Levels.ofList []))
  | .obj v =>
    match parseLevels v with
    | .error e => .error e
    | .ok ls => .ok (.logger name (.ofList ls))

/-!
## Registry construction (`_get_filters`)
-/

/-- `sphinx.util.logging.NAMESPACE` (every Sphinx logger lives under it). -/
def NAMESPACE : String := "sphinx"

/-- `format_name = lambda name: f'{NAMESPACE}.{name}'`. -/
def formatName (name : String) : String := NAMESPACE ++ "." ++ name

/-- An element of the `zeta_suppress_records` configuration list: either a
bare pattern (a `str` or compiled `re.Pattern`, for which
`_is_pattern_like` is true), or a tuple whose first element is a logger
short-name and whose remaining elements are patterns. -/
inductive SuppressRecordSpec where
  | pattern (p : Pattern)
  | group (name : String) (ps : List Pattern)

/-- `_is_pattern_like(obj)`. -/
def isPatternLike : SuppressRecordSpec → Bool
  | .pattern _ => true
  | .group _ _ => false

/-- `_partition(predicate, iterable)`: the pair `(no, yes)` of the elements
for which the predicate is falsey resp. truthy, each in input order (the
source implements this with `tee` + `filterfalse` / `filter`). -/
def pyPartition {α : Type} (p : α → Bool) (xs : List α) : List α × List α :=
  (xs.filter (fun x => !(p x)), xs.filter p)

/-- The `filters_by_prefix` dictionary: an insertion-ordered association from
logger-name prefixes to lists of filters. -/
def FilterMap : Type := List (String × List SuppressFilter)

/-- `filters_by_prefix.setdefault(prefix, []).append(suppressor)`: append the
filter to the list bound to the key, creating the binding if absent. -/
def setdefaultAppend (m : FilterMap) (k : String) (f : SuppressFilter) : FilterMap :=
  match m with
  | [] => [(k, [f])]
  | (k', fs) :: rest =>
    if k' = k then (k', fs ++ [f]) :: rest
    else (k', fs) :: setdefaultAppend rest k f

/-- Dictionary lookup, with `[]` for an absent key. -/
def lookupFilters (m : FilterMap) (k : String) : List SuppressFilter :=
  match m with
  | [] => []
  | (k', fs) :: rest => if k' = k then fs else lookupFilters rest k

/-- The first loop of `_get_filters`: for each `(name, levels)` item of
`config.zeta_suppress_loggers` (in dictionary order), build
`SphinxSuppressLogger(format_name(name), levels)` and append it under its
key; a `TypeError` from level parsing propagates. -/
def addLoggerFilters : List (String × LevelsSpec) → FilterMap → Except String FilterMap
  | [], m => .ok m
  | (n, spec) :: rest, m =>
    match mkSuppressLogger (formatName n) spec with
    | .error e => .error e
    | .ok f => addLoggerFilters rest (setdefaultAppend m (formatName n) f)

/-- The second loop of `_get_filters`: for each tuple `group`, build
`SphinxSuppressRecord(format_name(group[0]), True, group[1:])` and append it
under its key.  (It is only ever applied to the tuple half of the partition;
a stray bare pattern would contribute nothing.) -/
def addGroupFilters : List SuppressRecordSpec → FilterMap → FilterMap
  | [], m => m
  | .group n ps :: rest, m =>
    addGroupFilters rest (setdefaultAppend m (formatName n) (.record (formatName n) Levels.all ps))
  | .pattern _ :: rest, m => addGroupFilters rest m

/-- The patterns carried by the pattern-like elements of a record list. -/
def barePatterns (records : List SuppressRecordSpec) : List Pattern :=
  records.filterMap (fun r =>
    match r with
    | .pattern p => some p
    | .group _ _ => none)

/-- `_get_filters(config)`: build the per-name filters from
`zeta_suppress_loggers`, partition `zeta_suppress_records` into tuples and
bare patterns, add one combined filter per tuple, and return
`SphinxSuppressPatterns(patterns)` as the default filter together with the
dictionary. -/
def getFilters (loggers : List (String × LevelsSpec)) (records : List SuppressRecordSpec) :
    Except String (SuppressFilter × FilterMap) :=
  match addLoggerFilters loggers [] with
  | .error e => .error e
  | .ok m =>
    .ok (.patterns (barePatterns (pyPartition isPatternLike records).2),
      addGroupFilters (pyPartition isPatternLike records).1 m)

/-- The filters that the `zeta_suppress_loggers` loop contributes under key
`k`, in declaration order (used to state the registry characterization). -/
def expectedLoggerRules (loggers : List (String × LevelsSpec)) (k : String) : List SuppressFilter :=
  loggers.filterMap (fun e =>
    if formatName e.1 = k then (mkSuppressLogger (formatName e.1) e.2).toOption else none)

/-- The filters that the `zeta_suppress_records` tuples contribute under key
`k`, in declaration order (used to state the registry characterization). -/
def expectedGroupRules (records : List SuppressRecordSpec) (k : String) : List SuppressFilter :=
  records.filterMap (fun r =>
    match r with
    | .group n ps =>
      if formatName n = k then some (.record (formatName n) Levels.all ps) else none
    | .pattern _ => none)

/-!
## The installer (`_update_logger_in`, `install_supress_handlers`)

Python deduplicates with `if f not in adapter.logger.filters`, and
`logging.Filter` defines no `__eq__`, so list membership degenerates to
*object identity*.  The embedding therefore pairs every installed filter with
an identity tag (`fid`): distinct Python objects carry distinct tags, and the
membership test compares tags only.  `_get_filters` is called afresh inside
every run of `install_supress_handlers` and allocates brand-new objects each
time; a run of the installer is accordingly parameterized by a context whose
filters were tagged from a fresh base (`mkInstallCtx`).

A logger object is identified by a numeric id; the (immutable) map from ids
to logger names is a parameter, while the mutable `logger.filters` lists form
the state acted on.
-/

/-- A filter object as installed: its Python identity (`fid`) plus its
behaviour. -/
structure InstFilter where
  fid : Nat
  spec : SuppressFilter

/-- A `SphinxLoggerAdapter` found among a module's members: it wraps an
underlying logger object. -/
structure Adapter where
  loggerId : Nat

/-- One entry of `pkgutil.iter_modules` for a package: the submodule's fully
qualified name, whether `importlib.import_module` succeeds on it, and the
adapters among its members once imported. -/
structure SubModuleInfo where
  name : String
  importable : Bool
  members : List Adapter

/-- A Python module: its `__name__`, the `SphinxLoggerAdapter` members found
by `inspect.getmembers`, whether it has a `__path__` (i.e. is a package), and
its submodules. -/
structure PyModule where
  name : String
  members : List Adapter
  isPackage : Bool
  submodules : List SubModuleInfo

/-- A Sphinx extension: its registered name and its module. -/
structure Extension where
  name : String
  module : PyModule

/-- The mutable state: each logger object's `filters` list. -/
def LoggerState : Type := Nat → List InstFilter

/-- The output of `_get_filters`, with identity tags. -/
structure InstallCtx where
  defaultFilter : InstFilter
  filtersByName : List (String × List InstFilter)

/-- Tag a list of filters with consecutive identities starting at `base`;
returns the next free identity. -/
def tagList (base : Nat) (fs : List SuppressFilter) : Nat × List InstFilter :=
  match fs with
  | [] => (base, [])
  | f :: rest =>
    let t := tagList (base + 1) rest
    (t.1, ⟨base, f⟩ :: t.2)

/-- Tag every filter of a registry dictionary with consecutive identities. -/
def tagMap (base : Nat) (m : FilterMap) : Nat × List (String × List InstFilter) :=
  match m with
  | [] => (base, [])
  | (k, fs) :: rest =>
    let t := tagList base fs
    let t' := tagMap t.1 rest
    (t'.1, (k, t.2) :: t'.2)

/-- Package the result of `_get_filters` for a run of the installer.  Each
Python call of `_get_filters` constructs fresh filter objects; this is
modelled by tagging from a base not used by any earlier call. -/
def mkInstallCtx (base : Nat) (d : SuppressFilter) (m : FilterMap) : InstallCtx :=
  let t := tagMap base m
  { defaultFilter := ⟨t.1, d⟩, filtersByName := t.2 }

/-- `if f not in adapter.logger.filters: adapter.logger.addFilter(f)`:
membership is by object identity (`logging.Filter` has no `__eq__`). -/
def addFilterIfAbsent (st : LoggerState) (target : Nat) (f : InstFilter) : LoggerState :=
  fun i =>
    if i = target then
      if (st target).any (fun g => g.fid == f.fid) then st target
      else st target ++ [f]
    else st i

/-- The body of the member loop of `_update_logger_in`: for each
`(prefix, filters)` item, if the adapter's logger name starts with the
prefix, add each filter not yet present; finally add the default filter if
absent. -/
def updateAdapter (ln : Nat → String) (ctx : InstallCtx) (st : LoggerState) (a : Adapter) :
    LoggerState :=
  let st := ctx.filtersByName.foldl
    (fun st entry =>
      if entry.1.data.isPrefixOf (ln a.loggerId).data then
        entry.2.foldl (fun st f => addFilterIfAbsent st a.loggerId f) st
      else st) st
  addFilterIfAbsent st a.loggerId ctx.defaultFilter

/-- `_update_logger_in(module, ...)`: skip a module already in the cache;
otherwise record it and process every adapter member.  The state is the pair
of the logger filter lists and the `_cache` set. -/
def updateLoggerIn (ln : Nat → String) (ctx : InstallCtx) (modName : String)
    (members : List Adapter) (s : LoggerState × List String) : LoggerState × List String :=
  if modName ∈ s.2 then s
  else (members.foldl (updateAdapter ln ctx) s.1, modName :: s.2)

/-- The body of the extension loop of `install_supress_handlers`: a protected
extension is skipped outright; otherwise its module is processed and, if it
is a package, each submodule is processed unless protected or failing to
import. -/
def processExtension (ln : Nat → String) (protect : List String) (ctx : InstallCtx)
    (s : LoggerState × List String) (ext : Extension) : LoggerState × List String :=
  if ext.name ∈ protect then s
  else
    let s := updateLoggerIn ln ctx ext.module.name ext.module.members s
    if ext.module.isPackage then
      ext.module.submodules.foldl
        (fun s sub =>
          if sub.name ∈ protect then s
          else if !sub.importable then s
          else updateLoggerIn ln ctx sub.name sub.members s) s
    else s

/-- `install_supress_handlers(app, config)`: build the filters (passed here as
`ctx`, freshly tagged per call), start from an empty `seen` cache, and fold
over the extensions. -/
def installSuppressHandlers (ln : Nat → String) (protect : List String) (ctx : InstallCtx)
    (exts : List Extension) (st0 : LoggerState) : LoggerState :=
  (exts.foldl (processExtension ln protect ctx) (st0, [])).1

/-!
## Concrete example data (used by the closed counterexample and witness
theorems below)
-/

/-- The configuration `zeta_suppress_loggers = {'app': True}`. -/
def exLoggers : List (String × LevelsSpec) := [("app", LevelsSpec.bool true)]

/-- The filter `SphinxSuppressLogger('sphinx.app', True)`. -/
def exLoggerFilter : SuppressFilter := .logger "sphinx.app" Levels.all

/-- The registry dictionary produced from `exLoggers` alone. -/
def exMap3 : FilterMap := [("sphinx.app", [exLoggerFilter])]

/-- Filters of the first installer run (object identities 0, 1). -/
def exCtx1 : InstallCtx := mkInstallCtx 0 (.patterns []) exMap3

/-- Filters of the second installer run (fresh object identities 2, 3). -/
def exCtx2 : InstallCtx := mkInstallCtx 2 (.patterns []) exMap3

/-- A single loaded extension whose module holds one adapter for logger 0. -/
def exExt : Extension := ⟨"myext", ⟨"myext", [⟨0⟩], false, []⟩⟩

/-- Logger 0 is named `sphinx.app`. -/
def exLn : Nat → String := fun _ => "sphinx.app"

/-- Initially no logger carries any filter. -/
def exSt0 : LoggerState := fun _ => []

/-- The logger states after running the installer twice, exactly as the two
`config-inited` firings of `setup` do: each run re-creates its filters. -/
def exFinal : LoggerState :=
  installSuppressHandlers exLn [] exCtx2 [exExt]
    (installSuppressHandlers exLn [] exCtx1 [exExt] exSt0)

/-- A compiled pattern whose search hits exactly the message `"boom"`. -/
def exPat : Pattern := fun s => s == "boom"

/-- `zeta_suppress_records = [pattern, ('app',)]`: one bare pattern and one
scoped tuple carrying no patterns of its own. -/
def exRecords : List SuppressRecordSpec := [.pattern exPat, .group "app" []]

/-- The registry dictionary produced from `exLoggers` and `exRecords`. -/
def exMap : FilterMap :=
  [("sphinx.app", [.logger "sphinx.app" Levels.all, .record "sphinx.app" Levels.all []])]

/-- A context for the protected-extension scenario. -/
def exCtx9 : InstallCtx := mkInstallCtx 0 (.patterns []) exMap3

/-- An extension on the protect list; its module and submodule expose
adapters for logger 5. -/
def exExt9 : Extension := ⟨"secret", ⟨"secretmod", [⟨5⟩], true, [⟨"secretmod.sub", true, [⟨5⟩]⟩]⟩⟩

/-- Logger 5 is named under the configured `sphinx.app` umbrella. -/
def exLn9 : Nat → String := fun _ => "sphinx.app.x"

/-- A protected extension whose module defines the adapter for logger 7. -/
def exExtProt : Extension := ⟨"secret", ⟨"secretmod", [⟨7⟩], false, []⟩⟩

/-- An unprotected extension whose module imports the very same adapter
(Python: the logger object of `secretmod` is also a member of `openmod`'s
namespace, as `inspect.getmembers` sees it). -/
def exExtOpen : Extension := ⟨"open", ⟨"openmod", [⟨7⟩], false, []⟩⟩

/-- Logger 7 is named exactly as the configured `sphinx.app` entry. -/
def exLn7 : Nat → String := fun _ => "sphinx.app"

/-!
## Helper lemmas
-/

/-- Invariant preservation through a left fold. -/
theorem foldl_inv {σ α : Type} (inv : σ → Prop) (step : σ → α → σ) :
    ∀ (xs : List α) (s : σ), (∀ s' a, a ∈ xs → inv s' → inv (step s' a)) → inv s →
      inv (xs.foldl step s) := by
  intro xs
  induction xs with
  | nil => intro s _ hs; exact hs
  | cons x xs ih =>
    intro s hstep hs
    exact ih _ (fun s' a ha => hstep s' a (List.mem_cons_of_mem _ ha))
      (hstep s x (List.mem_cons_self _ _) hs)

theorem lookup_setdefaultAppend (m : FilterMap) (k : String) (f : SuppressFilter) (p : String) :
    lookupFilters (setdefaultAppend m k f) p =
      if k = p then lookupFilters m p ++ [f] else lookupFilters m p := by
  induction m with
  | nil =>
    by_cases h : k = p <;> simp [setdefaultAppend, lookupFilters, h]
  | cons e rest ih =>
    obtain ⟨k', fs⟩ := e
    by_cases h1 : k' = k
    · subst h1
      by_cases h2 : k' = p <;> simp [setdefaultAppend, lookupFilters, h2]
    · by_cases h2 : k' = p
      · subst h2
        have hk : ¬ k = k' := fun h => h1 h.symm
        simp [setdefaultAppend, lookupFilters, h1, hk]
      · simp [setdefaultAppend, lookupFilters, h1, h2, ih]

theorem expectedLoggerRules_cons (n : String) (spec : LevelsSpec)
    (rest : List (String × LevelsSpec)) (p : String) :
    expectedLoggerRules ((n, spec) :: rest) p =
      (if formatName n = p then (mkSuppressLogger (formatName n) spec).toOption.toList else []) ++
        expectedLoggerRules rest p := by
  by_cases hp : formatName n = p
  · subst hp
    cases hmk : mkSuppressLogger (formatName n) spec <;>
      simp [expectedLoggerRules, List.filterMap_cons, hmk, Except.toOption]
  · simp [expectedLoggerRules, List.filterMap_cons, hp]

theorem expectedGroupRules_cons_pattern (q : Pattern) (rest : List SuppressRecordSpec)
    (p : String) :
    expectedGroupRules (.pattern q :: rest) p = expectedGroupRules rest p := by
  simp [expectedGroupRules, List.filterMap_cons]

theorem expectedGroupRules_cons_group (n : String) (ps : List Pattern)
    (rest : List SuppressRecordSpec) (p : String) :
    expectedGroupRules (.group n ps :: rest) p =
      (if formatName n = p then [SuppressFilter.record (formatName n) Levels.all ps] else []) ++
        expectedGroupRules rest p := by
  by_cases hp : formatName n = p <;> simp [expectedGroupRules, List.filterMap_cons, hp]

theorem addLoggerFilters_lookup :
    ∀ (ls : List (String × LevelsSpec)) (m0 m : FilterMap),
      addLoggerFilters ls m0 = .ok m →
      ∀ p, lookupFilters m p = lookupFilters m0 p ++ expectedLoggerRules ls p := by
  intro ls
  induction ls with
  | nil =>
    intro m0 m h p
    simp [addLoggerFilters] at h
    subst h
    simp [expectedLoggerRules]
  | cons e rest ih =>
    intro m0 m h p
    obtain ⟨n, spec⟩ := e
    simp only [addLoggerFilters] at h
    cases hmk : mkSuppressLogger (formatName n) spec with
    | error err => rw [hmk] at h; exact absurd h (by simp)
    | ok f =>
      rw [hmk] at h
      rw [ih _ _ h p, lookup_setdefaultAppend, expectedLoggerRules_cons, hmk]
      by_cases hp : formatName n = p
      · simp [hp, Except.toOption]
      · simp [hp]

theorem addGroupFilters_lookup :
    ∀ (gs : List SuppressRecordSpec) (m0 : FilterMap) (p : String),
      lookupFilters (addGroupFilters gs m0) p =
        lookupFilters m0 p ++ expectedGroupRules gs p := by
  intro gs
  induction gs with
  | nil => intro m0 p; simp [addGroupFilters, expectedGroupRules]
  | cons g rest ih =>
    intro m0 p
    cases g with
    | pattern q =>
      rw [expectedGroupRules_cons_pattern]
      simpa [addGroupFilters] using ih m0 p
    | group n ps =>
      simp only [addGroupFilters]
      rw [ih, lookup_setdefaultAppend, expectedGroupRules_cons_group]
      by_cases hp : formatName n = p
      · simp [hp]
      · simp [hp]

theorem expectedGroupRules_filter (records : List SuppressRecordSpec) (p : String) :
    expectedGroupRules (records.filter (fun r => !(isPatternLike r))) p =
      expectedGroupRules records p := by
  induction records with
  | nil => rfl
  | cons r rest ih =>
    cases r with
    | pattern q =>
      have hdrop : (SuppressRecordSpec.pattern q :: rest).filter (fun r => !(isPatternLike r)) =
          rest.filter (fun r => !(isPatternLike r)) := by
        rw [List.filter_cons]
        simp [isPatternLike]
      rw [hdrop, ih, expectedGroupRules_cons_pattern]
    | group n ps =>
      have hkeep : (SuppressRecordSpec.group n ps :: rest).filter (fun r => !(isPatternLike r)) =
          SuppressRecordSpec.group n ps :: rest.filter (fun r => !(isPatternLike r)) := by
        rw [List.filter_cons]
        simp [isPatternLike]
      rw [hkeep, expectedGroupRules_cons_group, expectedGroupRules_cons_group, ih]

theorem barePatterns_cons_pattern (q : Pattern) (rest : List SuppressRecordSpec) :
    barePatterns (.pattern q :: rest) = q :: barePatterns rest := by
  simp [barePatterns, List.filterMap_cons]

theorem barePatterns_cons_group (n : String) (ps : List Pattern)
    (rest : List SuppressRecordSpec) :
    barePatterns (.group n ps :: rest) = barePatterns rest := by
  simp [barePatterns, List.filterMap_cons]

theorem barePatterns_filter (records : List SuppressRecordSpec) :
    barePatterns (records.filter isPatternLike) = barePatterns records := by
  induction records with
  | nil => rfl
  | cons r rest ih =>
    cases r with
    | pattern q =>
      have hkeep : (SuppressRecordSpec.pattern q :: rest).filter isPatternLike =
          SuppressRecordSpec.pattern q :: rest.filter isPatternLike := by
        rw [List.filter_cons]
        simp [isPatternLike]
      rw [hkeep, barePatterns_cons_pattern, barePatterns_cons_pattern, ih]
    | group n ps =>
      have hdrop : (SuppressRecordSpec.group n ps :: rest).filter isPatternLike =
          rest.filter isPatternLike := by
        rw [List.filter_cons]
        simp [isPatternLike]
      rw [hdrop, barePatterns_cons_group, ih]

theorem nodup_addFilterIfAbsent (st : LoggerState) (target : Nat) (f : InstFilter) (lid : Nat)
    (h : ((st lid).map InstFilter.fid).Nodup) :
    (((addFilterIfAbsent st target f) lid).map InstFilter.fid).Nodup := by
  by_cases hl : lid = target
  · subst hl
    by_cases hc : (st lid).any (fun g => g.fid == f.fid)
    · simpa [addFilterIfAbsent, hc] using h
    · have hne : f.fid ∉ (st lid).map InstFilter.fid := by
        intro hx
        rw [List.mem_map] at hx
        obtain ⟨g, hg, hfid⟩ := hx
        exact hc (List.any_eq_true.mpr ⟨g, hg, by simp [hfid]⟩)
      have : ((st lid ++ [f]).map InstFilter.fid).Nodup := by
        rw [← List.concat_eq_append, List.map_concat]
        exact List.Nodup.concat hne h
      simpa [addFilterIfAbsent, hc] using this
  · simpa [addFilterIfAbsent, hl] using h

theorem nodup_updateAdapter (ln : Nat → String) (ctx : InstallCtx) (st : LoggerState)
    (a : Adapter) (lid : Nat) (h : ((st lid).map InstFilter.fid).Nodup) :
    (((updateAdapter ln ctx st a) lid).map InstFilter.fid).Nodup := by
  unfold updateAdapter
  apply nodup_addFilterIfAbsent
  refine foldl_inv (fun st : LoggerState => ((st lid).map InstFilter.fid).Nodup) _ _ _ ?_ h
  intro s' entry _ hs
  by_cases he : entry.1.data.isPrefixOf (ln a.loggerId).data
  · simp only [he, if_true]
    refine foldl_inv (fun st : LoggerState => ((st lid).map InstFilter.fid).Nodup) _ _ _ ?_ hs
    intro s'' f _ hs''
    exact nodup_addFilterIfAbsent _ _ _ _ hs''
  · simpa [he] using hs

theorem nodup_updateLoggerIn (ln : Nat → String) (ctx : InstallCtx) (modName : String)
    (members : List Adapter) (s : LoggerState × List String) (lid : Nat)
    (h : ((s.1 lid).map InstFilter.fid).Nodup) :
    (((updateLoggerIn ln ctx modName members s).1 lid).map InstFilter.fid).Nodup := by
  unfold updateLoggerIn
  by_cases hc : modName ∈ s.2
  · simpa [hc] using h
  · simp only [hc, if_false]
    refine foldl_inv (fun st : LoggerState => ((st lid).map InstFilter.fid).Nodup) _ _ _ ?_ h
    intro s' a _ hs
    exact nodup_updateAdapter _ _ _ _ _ hs

theorem nodup_processExtension (ln : Nat → String) (protect : List String) (ctx : InstallCtx)
    (s : LoggerState × List String) (ext : Extension) (lid : Nat)
    (h : ((s.1 lid).map InstFilter.fid).Nodup) :
    (((processExtension ln protect ctx s ext).1 lid).map InstFilter.fid).Nodup := by
  unfold processExtension
  by_cases hp : ext.name ∈ protect
  · simpa [hp] using h
  · simp only [hp, if_false]
    by_cases hpkg : ext.module.isPackage
    · simp only [hpkg, if_true]
      refine foldl_inv
        (fun s : LoggerState × List String => ((s.1 lid).map InstFilter.fid).Nodup) _ _ _ ?_
        (nodup_updateLoggerIn _ _ _ _ _ _ h)
      intro s' sub _ hs
      by_cases h1 : sub.name ∈ protect
      · simpa [h1] using hs
      · rw [if_neg h1]
        by_cases h2 : sub.importable
        · have h2' : ¬((!sub.importable) = true) := by simp [h2]
          rw [if_neg h2']
          exact nodup_updateLoggerIn _ _ _ _ _ _ hs
        · have h2' : (!sub.importable) = true := by simp [h2]
          rw [if_pos h2']
          exact hs
    · rw [if_neg hpkg]
      exact nodup_updateLoggerIn _ _ _ _ _ _ h

theorem frame_addFilterIfAbsent (st : LoggerState) (target : Nat) (f : InstFilter) (lid : Nat)
    (h : lid ≠ target) : (addFilterIfAbsent st target f) lid = st lid := by
  simp [addFilterIfAbsent, h]

theorem frame_updateAdapter (ln : Nat → String) (ctx : InstallCtx) (st : LoggerState)
    (a : Adapter) (lid : Nat) (h : a.loggerId ≠ lid) :
    (updateAdapter ln ctx st a) lid = st lid := by
  unfold updateAdapter
  have hne : lid ≠ a.loggerId := fun he => h he.symm
  rw [frame_addFilterIfAbsent _ _ _ _ hne]
  refine foldl_inv (fun st' : LoggerState => st' lid = st lid) _ _ _ ?_ rfl
  intro s' entry _ hs
  by_cases he : entry.1.data.isPrefixOf (ln a.loggerId).data
  · simp only [he, if_true]
    refine foldl_inv (fun st' : LoggerState => st' lid = st lid) _ _ _ ?_ hs
    intro s'' f _ hs''
    rw [frame_addFilterIfAbsent _ _ _ _ hne, hs'']
  · simpa [he] using hs

theorem frame_updateLoggerIn (ln : Nat → String) (ctx : InstallCtx) (modName : String)
    (members : List Adapter) (s : LoggerState × List String) (lid : Nat)
    (h : ∀ a ∈ members, a.loggerId ≠ lid) :
    (updateLoggerIn ln ctx modName members s).1 lid = s.1 lid := by
  unfold updateLoggerIn
  by_cases hc : modName ∈ s.2
  · simp [hc]
  · simp only [hc, if_false]
    refine foldl_inv (fun st : LoggerState => st lid = s.1 lid) _ _ _ ?_ rfl
    intro s' a ha hs
    rw [frame_updateAdapter _ _ _ _ _ (h a ha), hs]

theorem frame_processExtension (ln : Nat → String) (protect : List String) (ctx : InstallCtx)
    (s : LoggerState × List String) (ext : Extension) (lid : Nat)
    (h : ext.name ∈ protect ∨
      ((∀ a ∈ ext.module.members, a.loggerId ≠ lid) ∧
        ∀ sub ∈ ext.module.submodules,
          sub.name ∈ protect ∨ sub.importable = false ∨ ∀ a ∈ sub.members, a.loggerId ≠ lid)) :
    (processExtension ln protect ctx s ext).1 lid = s.1 lid := by
  unfold processExtension
  by_cases hp : ext.name ∈ protect
  · simp [hp]
  · rw [if_neg hp]
    obtain hmem := h.resolve_left hp
    have hbase : (updateLoggerIn ln ctx ext.module.name ext.module.members s).1 lid = s.1 lid :=
      frame_updateLoggerIn _ _ _ _ _ _ hmem.1
    by_cases hpkg : ext.module.isPackage
    · rw [if_pos hpkg]
      refine foldl_inv (fun s' : LoggerState × List String => s'.1 lid = s.1 lid) _ _ _ ?_ hbase
      intro s' sub hsub hs
      rcases hmem.2 sub hsub with h1 | h2 | h3
      · rw [if_pos h1]
        exact hs
      · have h2' : (!sub.importable) = true := by simp [h2]
        by_cases hn : sub.name ∈ protect
        · rw [if_pos hn]; exact hs
        · rw [if_neg hn, if_pos h2']; exact hs
      · by_cases hn : sub.name ∈ protect
        · rw [if_pos hn]; exact hs
        · rw [if_neg hn]
          by_cases hi : sub.importable
          · have hi' : ¬((!sub.importable) = true) := by simp [hi]
            rw [if_neg hi']
            rw [frame_updateLoggerIn _ _ _ _ _ _ h3, hs]
          · have hi' : (!sub.importable) = true := by simp [hi]
            rw [if_pos hi']
            exact hs
    · rw [if_neg hpkg]
      exact hbase

theorem normalizeLevel_error_iff (x : PyObj) :
    (∃ e, normalizeLevel x = .error e) ↔ ∃ ys, x = .plist ys := by
  cases x <;> simp [normalizeLevel]

theorem normalizeLevels_cons_error (x : PyObj) (xs : List PyObj) :
    (∃ e, normalizeLevels (x :: xs) = .error e) ↔
      ((∃ e, normalizeLevel x = .error e) ∨ ∃ e, normalizeLevels xs = .error e) := by
  simp only [normalizeLevels]
  cases hx : normalizeLevel x with
  | error e => simp
  | ok v =>
    cases hxs : normalizeLevels xs with
    | error e => simp
    | ok rest => simp

theorem normalizeLevels_error_iff (l : List PyObj) :
    (∃ e, normalizeLevels l = .error e) ↔ ∃ y ∈ l, ∃ ys, y = .plist ys := by
  induction l with
  | nil => simp [normalizeLevels]
  | cons x xs ih =>
    rw [normalizeLevels_cons_error, normalizeLevel_error_iff, ih]
    constructor
    · rintro (⟨ys, hys⟩ | ⟨y, hy, ys, hys⟩)
      · exact ⟨x, List.mem_cons_self _ _, ys, hys⟩
      · exact ⟨y, List.mem_cons_of_mem _ hy, ys, hys⟩
    · rintro ⟨y, hy, ys, hys⟩
      rcases List.mem_cons.mp hy with h | h
      · subst h; exact Or.inl ⟨ys, hys⟩
      · exact Or.inr ⟨y, h, ys, hys⟩

/-!
## The claims
-/

/-- C1, counterexample.  The claim says `suppressed` is `true` iff the level
is in the resolved set, and `false` for an empty set *regardless of the
record's logger name*.  The code disagrees: a `SphinxSuppressLogger` built
from the empty severities list, applied to a record of an unrelated logger
(`other.logger` does not match the filter name `sphinx.app`), returns `true`
even though the level set is empty and contains nothing. -/
theorem C1_cex :
    mkSuppressLogger "sphinx.app" (.obj (.plist [])) =
      .ok (.logger "sphinx.app" (.ofList [])) ∧
    Levels.isMember (.ofList []) 10 = false ∧
    (SuppressFilter.logger "sphinx.app" (.ofList [])).suppressed ⟨"other.logger", 10, "m"⟩ = true :=
  ⟨rfl, rfl, rfl⟩

/-- C1, amended.  For a `SphinxSuppressLogger` whose severities resolved to
the list `ls`, `suppressed(record)` is `true` iff the record fails the
standard `logging.Filter` name check, OR its level is a member of `ls`.
Consequently, for records whose name matches the filter, `suppressed` is
`true` iff the level is in the set, and is `false` whenever the set is
empty; records of non-matching loggers are unconditionally suppressed. -/
theorem C1_amended (name : String) (ls : List Int) (r : LogRecord) :
    (SuppressFilter.logger name (.ofList ls)).suppressed r = true ↔
      (filterNameMatch name r.name = false ∨ r.levelno ∈ ls) := by
  simp [SuppressFilter.suppressed, loggerSuppressed, Levels.isMember, Bool.or_eq_true,
    Bool.not_eq_true', List.contains, List.elem_iff]

/-- C2.  The claim (and the function's own type annotation
`Level | Iterable[Level] -> list[int]` with `Level = int | str`) says a
single name string such as `'WARNING'` yields the one-element list of its
integer level.  The code instead iterates the string character by character
(a `str` is `Iterable`), so every single-character lookup fails and the
result is the empty list — even though `'WARNING'` is a recognized name
(second conjunct) and the very same name wrapped in a list gives `[30]`
(third conjunct). -/
theorem C2_bug :
    parseLevels (.pstr "WARNING") = .ok [] ∧
    nameToLevel "WARNING" = some 30 ∧
    parseLevels (.plist [.pstr "WARNING"]) = .ok [30] :=
  ⟨rfl, rfl, rfl⟩

/-- C3, counterexample.  Running `install_supress_handlers` twice against the
same single-extension world and the configuration `{'app': True}` leaves the
logger with FOUR filters: the two filters of the first run (identities 0, 1)
and two fresh, behaviourally identical filters of the second run
(identities 2, 3).  The dedup check `f not in logger.filters` compares by
object identity, and each run re-creates its filter objects, so after the
second run the logger's list does contain two filters performing the same
suppression check — refuting the claimed cross-run idempotence. -/
theorem C3_cex :
    getFilters exLoggers [] = .ok (.patterns [], exMap3) ∧
    (exFinal 0).map InstFilter.spec =
      [exLoggerFilter, .patterns [], exLoggerFilter, .patterns []] ∧
    (exFinal 0).map InstFilter.fid = [0, 1, 2, 3] :=
  ⟨rfl, rfl, rfl⟩

/-- C3, amended.  Within a single run of the installer, each filter object is
attached at most once per logger: if a logger's filter list holds no
duplicate filter objects before the run, it holds none afterwards (the
installer checks membership before each `addFilter`).  Idempotence does not
extend across runs, which build fresh filter objects (see `C3_cex`). -/
theorem C3_amended (ln : Nat → String) (protect : List String) (ctx : InstallCtx)
    (exts : List Extension) (st0 : LoggerState) (lid : Nat)
    (h : ((st0 lid).map InstFilter.fid).Nodup) :
    (((installSuppressHandlers ln protect ctx exts st0) lid).map InstFilter.fid).Nodup := by
  unfold installSuppressHandlers
  refine foldl_inv
    (fun s : LoggerState × List String => ((s.1 lid).map InstFilter.fid).Nodup) _ _ _ ?_ h
  intro s' ext _ hs
  exact nodup_processExtension _ _ _ _ _ _ hs

/-- C3, witness: a single run on initially filter-free loggers yields
duplicate-free filter lists. -/
theorem C3_witness :
    ((exSt0 0).map InstFilter.fid).Nodup ∧
    (((installSuppressHandlers exLn [] exCtx1 [exExt] exSt0) 0).map InstFilter.fid).Nodup :=
  ⟨List.nodup_nil, C3_amended exLn [] exCtx1 [exExt] exSt0 0 List.nodup_nil⟩

/-- C4.  A `SphinxSuppressPatterns` filter with an empty pattern set never
suppresses (the iff forces `ps ≠ []`); with a non-empty set it suppresses
exactly when at least one compiled pattern's search hits the record's fully
formatted message. -/
theorem C4_thm (ps : List Pattern) (r : LogRecord) :
    (SuppressFilter.patterns ps).suppressed r = true ↔
      (ps ≠ [] ∧ ∃ p ∈ ps, p r.message = true) := by
  cases ps with
  | nil => simp [SuppressFilter.suppressed, patternsSuppressed]
  | cons q qs =>
    simp [SuppressFilter.suppressed, patternsSuppressed, List.any_eq_true]

/-- C5, counterexample.  The claim says `SphinxSuppressRecord.suppressed` is
`true` iff a standalone `SphinxSuppressLogger.suppressed` with the same
constructor arguments and `SphinxSuppressPatterns.suppressed` both return
`true`.  But the record filter's `logging.Filter` name is erased to `''` by
the MRO, so on `SphinxSuppressRecord('sphinx.app', [30], [p])` and a record
`('other.logger', 10, 'boom')` matched by `p`: the standalone name/level
rule answers `true` (non-matching name suppresses unconditionally), the
pattern rule answers `true`, yet the record filter answers `false`
(`10 ∉ [30]`) — refuting the claimed equivalence. -/
theorem C5_cex :
    (SuppressFilter.logger "sphinx.app" (.ofList [30])).suppressed
      ⟨"other.logger", 10, "boom"⟩ = true ∧
    (SuppressFilter.patterns [exPat]).suppressed ⟨"other.logger", 10, "boom"⟩ = true ∧
    (SuppressFilter.record "sphinx.app" (.ofList [30]) [exPat]).suppressed
      ⟨"other.logger", 10, "boom"⟩ = false :=
  ⟨rfl, rfl, rfl⟩

/-- C5, amended.  `SphinxSuppressRecord.suppressed` is `true` iff its two
halves both hold: the name/level sub-rule *as the object actually carries
it* — `SphinxSuppressLogger.suppressed` with the `logging.Filter` name
erased to `''` by the MRO, i.e. plain level membership — and the pattern
sub-rule `SphinxSuppressPatterns.suppressed`; in particular, when exactly
one of the two halves holds, the record is not suppressed. -/
theorem C5_amended (name : String) (levels : Levels) (ps : List Pattern) (r : LogRecord) :
    ((SuppressFilter.record name levels ps).suppressed r = true ↔
      ((SuppressFilter.logger "" levels).suppressed r = true ∧
        (SuppressFilter.patterns ps).suppressed r = true)) ∧
    ((SuppressFilter.logger "" levels).suppressed r ≠
        (SuppressFilter.patterns ps).suppressed r →
      (SuppressFilter.record name levels ps).suppressed r = false) := by
  constructor
  · simp [SuppressFilter.suppressed, Bool.and_eq_true]
  · intro hne
    simp only [SuppressFilter.suppressed] at hne ⊢
    cases hl : loggerSuppressed "" levels r <;>
      cases hp : patternsSuppressed ps r <;> simp_all

/-- C5, witness: a record whose message matches the pattern half but whose
level misses the level half is not suppressed by the combined rule. -/
theorem C5_witness :
    ((SuppressFilter.logger "" (.ofList [30])).suppressed ⟨"other.logger", 10, "boom"⟩ ≠
      (SuppressFilter.patterns [exPat]).suppressed ⟨"other.logger", 10, "boom"⟩) ∧
    (SuppressFilter.record "sphinx.app" (.ofList [30]) [exPat]).suppressed
      ⟨"other.logger", 10, "boom"⟩ = false :=
  ⟨by decide,
    (C5_amended "sphinx.app" (.ofList [30]) [exPat] ⟨"other.logger", 10, "boom"⟩).2 (by decide)⟩

/-- C6.  Whenever `_get_filters` succeeds, the default filter is a
pattern-only rule built from exactly the bare (pattern-like) entries of
`zeta_suppress_records`, and for every key of the registry dictionary, the
rule list is: one `SphinxSuppressLogger` per `zeta_suppress_loggers` entry
whose namespaced name is that key (in declaration order), followed by one
combined `SphinxSuppressRecord` — with suppress-at-every-level semantics and
the tuple's tail as patterns — per tuple whose namespaced head is that key
(in declaration order). -/
theorem C6_thm (loggers : List (String × LevelsSpec)) (records : List SuppressRecordSpec)
    (d : SuppressFilter) (m : FilterMap)
    (h : getFilters loggers records = .ok (d, m)) :
    d = .patterns (barePatterns records) ∧
    ∀ p, lookupFilters m p = expectedLoggerRules loggers p ++ expectedGroupRules records p := by
  unfold getFilters at h
  cases hadd : addLoggerFilters loggers [] with
  | error e => rw [hadd] at h; exact absurd h (by simp)
  | ok m1 =>
    rw [hadd] at h
    simp only [pyPartition, Except.ok.injEq, Prod.mk.injEq] at h
    obtain ⟨hd, hm⟩ := h
    constructor
    · rw [← hd, barePatterns_filter]
    · intro p
      rw [← hm, addGroupFilters_lookup, addLoggerFilters_lookup _ _ _ hadd p,
        expectedGroupRules_filter]
      simp [lookupFilters]

/-- C6, witness: the registry built from `{'app': True}` together with one
bare pattern and one scoped tuple `('app',)`. -/
theorem C6_witness :
    getFilters exLoggers exRecords = .ok (.patterns [exPat], exMap) ∧
    lookupFilters exMap "sphinx.app" =
      expectedLoggerRules exLoggers "sphinx.app" ++ expectedGroupRules exRecords "sphinx.app" :=
  ⟨rfl, (C6_thm exLoggers exRecords (.patterns [exPat]) exMap rfl).2 "sphinx.app"⟩

/-- C7.  Constructing a `SphinxSuppressLogger` with severities `True` yields
the `_ALL` sentinel, whose membership test accepts every integer level —
extensionally the set of all possible levels — and therefore every record
matching the configured name is suppressed. -/
theorem C7_thm (name : String) (r : LogRecord) (h : filterNameMatch name r.name = true) :
    mkSuppressLogger name (.bool true) = .ok (.logger name Levels.all) ∧
    (∀ n : Int, Levels.isMember Levels.all n = true) ∧
    (SuppressFilter.logger name Levels.all).suppressed r = true := by
  refine ⟨rfl, fun n => rfl, ?_⟩
  simp [SuppressFilter.suppressed, loggerSuppressed, h, Levels.isMember]

/-- C7, witness: a DEBUG record of `sphinx.app.build` is suppressed by the
suppress-all filter on `sphinx.app`. -/
theorem C7_witness :
    filterNameMatch "sphinx.app" "sphinx.app.build" = true ∧
    (SuppressFilter.logger "sphinx.app" Levels.all).suppressed
      ⟨"sphinx.app.build", 10, "m"⟩ = true :=
  ⟨by decide, (C7_thm "sphinx.app" ⟨"sphinx.app.build", 10, "m"⟩ (by decide)).2.2⟩

/-- C8, counterexample.  The claim says level normalization raises a type
error for EVERY input containing an element that is neither an integer nor a
string.  It does not: `[None]` and `[1.5, 5]` both contain such elements,
yet parse without raising — the offending hashable elements merely miss in
`logging._nameToLevel` (a `KeyError`, converted to `None` and dropped). -/
theorem C8_cex :
    parseLevels (.plist [.pnone]) = .ok [] ∧
    parseLevels (.plist [.pfloat, .pint 5]) = .ok [5] :=
  ⟨rfl, rfl⟩

/-- C8, amended.  `_parse_levels` raises a type error exactly when the input
is a non-iterable that is neither an `int` nor a `str` (`None`, a float), or
when the input is an iterable containing an UNHASHABLE element (modelled by
a nested list, which explodes the `_nameToLevel` lookup with `TypeError`).
Hashable non-int/non-str elements are silently dropped, and a bare string —
being iterable — never raises. -/
theorem C8_amended (x : PyObj) :
    (∃ e, parseLevels x = .error e) ↔
      (x = .pnone ∨ x = .pfloat ∨ ∃ xs, x = .plist xs ∧ ∃ y ∈ xs, ∃ ys, y = .plist ys) := by
  cases x with
  | pint n => simp [parseLevels]
  | pnone => simp [parseLevels]
  | pfloat => simp [parseLevels]
  | plist xs => simp [parseLevels, normalizeLevels_error_iff]
  | pstr s =>
    rw [parseLevels, normalizeLevels_error_iff]
    constructor
    · rintro ⟨y, hy, ys, hys⟩
      rw [List.mem_map] at hy
      obtain ⟨c, _, rfl⟩ := hy
      exact absurd hys (by simp)
    · rintro (h | h | ⟨xs, hxs, _⟩) <;> simp_all

/-- C9, counterexample.  The claim says that for an extension on the protect
list the installer "attaches no filter to any logger it defines" and leaves
such loggers' filter lists unchanged, unconditionally.  It does not hold:
`inspect.getmembers` scans module *namespaces*, so when the logger defined
in the protected module `secretmod` (extension `secret`, on the protect
list) is also imported into the unprotected module `openmod`, the installer
reaches it through `openmod` and attaches both the matching-name filter and
the default filter — logger 7's filter list goes from `[]` to two filters
(identities 0 and 1). -/
theorem C9_cex :
    exExtProt.name = "secret" ∧
    exExtProt.module.members = [⟨7⟩] ∧
    exSt0 7 = [] ∧
    (installSuppressHandlers exLn7 ["secret"] exCtx9 [exExtProt, exExtOpen] exSt0 7).map
      InstFilter.fid = [0, 1] :=
  ⟨rfl, rfl, rfl, rfl⟩

/-- C9, amended.  A protected extension is never scanned itself, and a
logger referenced ONLY from protected places is untouched by a run of the
installer: if every loaded extension is either on the protect list, or
references the logger neither among its module's members nor in any scanned
submodule (a submodule being scanned unless protected or unimportable),
then that logger's filter list after `install_supress_handlers` equals its
filter list before — even when the logger's name matches a configured
suppression entry.  (The restriction to loggers not also visible from an
unprotected module is exactly what `C9_cex` forces.) -/
theorem C9_thm (ln : Nat → String) (protect : List String) (ctx : InstallCtx)
    (exts : List Extension) (st0 : LoggerState) (lid : Nat)
    (h : ∀ ext ∈ exts, ext.name ∈ protect ∨
      ((∀ a ∈ ext.module.members, a.loggerId ≠ lid) ∧
        ∀ sub ∈ ext.module.submodules,
          sub.name ∈ protect ∨ sub.importable = false ∨ ∀ a ∈ sub.members, a.loggerId ≠ lid)) :
    installSuppressHandlers ln protect ctx exts st0 lid = st0 lid := by
  unfold installSuppressHandlers
  refine foldl_inv
    (fun s : LoggerState × List String => s.1 lid = st0 lid) _ _ _ ?_ rfl
  intro s' ext hext hs
  rw [frame_processExtension _ _ _ _ _ _ (h ext hext), hs]

/-- C9, witness: a protected extension `secret` defining logger 5 (named
under the configured `sphinx.app` umbrella, both in the module and in a
submodule) leaves logger 5's filter list empty. -/
theorem C9_witness :
    (∀ ext ∈ [exExt9], ext.name ∈ ["secret"] ∨
      ((∀ a ∈ ext.module.members, a.loggerId ≠ 5) ∧
        ∀ sub ∈ ext.module.submodules,
          sub.name ∈ ["secret"] ∨ sub.importable = false ∨ ∀ a ∈ sub.members, a.loggerId ≠ 5)) ∧
    installSuppressHandlers exLn9 ["secret"] exCtx9 [exExt9] exSt0 5 = exSt0 5 :=
  ⟨by decide, C9_thm exLn9 ["secret"] exCtx9 [exExt9] exSt0 5 (by decide)⟩

/-- C10.  A `SphinxSuppressRecord` with an empty pattern set — exactly what
`_get_filters` builds from a scoped tuple holding only a logger name — never
suppresses any record at any level: the pattern half of the conjunction is
constantly false, even with suppress-at-every-level name semantics. -/
theorem C10_thm (name : String) (levels : Levels) (r : LogRecord) :
    (SuppressFilter.record name levels []).suppressed r = false := by
  simp [SuppressFilter.suppressed, patternsSuppressed]
